import Mathlib

/-!
Shallow embedding of the job-market-intelligence repository
(src/scrapers/greenhouse.py and src/extractors/skills.py), together with
theorems settling the specification claims about it.
-/

set_option maxHeartbeats 1000000
set_option maxRecDepth 4000

/-- Python exception classes that the embedded code can raise. -/
inductive PyErr where
  | connError
  | timeoutError
  | httpStatusError (code : Nat)
  | jsonDecodeError
  | attributeError
  | typeError
  | indexError
  | validationError
  deriving DecidableEq, Repr

/-- JSON values as returned by response.json(). A Python dict is modelled as an
association list with distinct keys; List.lookup returns the value of a key. -/
inductive Json where
  | null
  | bool (b : Bool)
  | num (n : Int)
  | str (s : String)
  | arr (elems : List Json)
  | obj (fields : List (String × Json))

/-- Python dict.get(key, default); calling .get on a non-dict value raises
AttributeError. -/
def dictGet : Json → String → Json → Except PyErr Json
  | .obj kvs, key, dflt => .ok ((kvs.lookup key).getD dflt)
  | _, _, _ => .error .attributeError

/-- Python truthiness of a JSON value. -/
def truthy : Json → Bool
  | .null => false
  | .bool b => b
  | .num n => n != 0
  | .str s => s != ""
  | .arr xs => !xs.isEmpty
  | .obj kvs => !kvs.isEmpty

/-- Python sequence[0]: IndexError on an empty list, TypeError on a
non-sequence value. -/
def indexZero : Json → Except PyErr Json
  | .arr (x :: _) => .ok x
  | .arr [] => .error .indexError
  | _ => .error .typeError

/-- pydantic validation of a required str field. -/
def asStr : Json → Except PyErr String
  | .str s => .ok s
  | _ => .error .validationError

/-- Calling a str method (.lower, .replace) on a value: AttributeError when it
is not a string. -/
def asStrMethod : Json → Except PyErr String
  | .str s => .ok s
  | _ => .error .attributeError

/-- pydantic validation of an Optional[str] field. -/
def asOptStr : Json → Except PyErr (Option String)
  | .null => .ok none
  | .str s => .ok (some s)
  | _ => .error .validationError

/-- pydantic validation of an int field. -/
def asInt : Json → Except PyErr Int
  | .num n => .ok n
  | _ => .error .validationError

/-- Iterating a value with a for loop: TypeError when it is not a list. -/
def asList : Json → Except PyErr (List Json)
  | .arr xs => .ok xs
  | _ => .error .typeError

/-- ASCII lower-casing of one character, as str.lower() does on ASCII text. -/
def lowerChar (c : Char) : Char :=
  if 65 ≤ c.toNat ∧ c.toNat ≤ 90 then Char.ofNat (c.toNat + 32) else c

/-- str.lower() restricted to ASCII case mapping. -/
def pyLower (s : String) : String := String.mk (s.toList.map lowerChar)

/-- The whitespace characters removed by str.strip(), by code point: space,
tab, newline, carriage return, vertical tab, form feed. -/
def isPySpace (c : Char) : Bool :=
  decide (c.toNat = 32 ∨ c.toNat = 9 ∨ c.toNat = 10 ∨ c.toNat = 13 ∨
    c.toNat = 11 ∨ c.toNat = 12)

/-- str.strip() on a list of characters: drop whitespace at both ends. -/
def stripList (l : List Char) : List Char :=
  ((l.dropWhile isPySpace).reverse.dropWhile isPySpace).reverse

/-- str.strip(). -/
def pyStrip (s : String) : String := String.mk (stripList s.toList)

/-- Does the character list start with the given pattern? -/
def startsWithList : List Char → List Char → Bool
  | [], _ => true
  | _ :: _, [] => false
  | a :: as, b :: bs => a == b && startsWithList as bs

/-- Substring containment over character lists (needle occurs in haystack). -/
def infixOfList (needle : List Char) : List Char → Bool
  | [] => needle.isEmpty
  | b :: bs => startsWithList needle (b :: bs) || infixOfList needle bs

/-- The Python test needle in haystack for strings. -/
def strContains (haystack needle : String) : Bool :=
  infixOfList needle.toList haystack.toList

/-- str.replace(pattern, replacement) for a one-character pattern. -/
def replaceChar (c : Char) (rep : List Char) (l : List Char) : List Char :=
  l.flatMap (fun x => if x == c then rep else [x])

/-- value.replace("k", "000").replace("K", "000"). -/
def expandK (s : String) : String :=
  String.mk (replaceChar 'K' ['0', '0', '0'] (replaceChar 'k' ['0', '0', '0'] s.toList))

/-- int() applied to a run of decimal digits. -/
def digitsToNat (run : List Char) : Nat :=
  run.foldl (fun n c => 10 * n + (c.toNat - 48)) 0

/-- One left-to-right scan collecting maximal digit runs; cur holds the
digits of the run in progress, most recent first. -/
def digitRunsAcc : List Char → List Char → List (List Char)
  | [], cur => if cur.isEmpty then [] else [cur.reverse]
  | c :: cs, cur =>
    if c.isDigit then digitRunsAcc cs (c :: cur)
    else if cur.isEmpty then digitRunsAcc cs []
    else cur.reverse :: digitRunsAcc cs []

/-- The maximal runs of decimal digits in a character list, left to right,
as found by re.findall of one-or-more digits. -/
def digitRunsAux (l : List Char) : List (List Char) := digitRunsAcc l []

/-- re.findall of digit runs on a string, each converted by int(). -/
def digitRuns (s : String) : List Nat := (digitRunsAux s.toList).map digitsToNat

/-- The salary-phrase parsing done for one metadata value inside
GreenhouseScraper._extract_salary: expand k/K to 000, find all digit runs, then
return (first, second) when at least two, the single run twice when one, and
(None, None) when none. -/
def parseSalaryValue (value : String) : Option Nat × Option Nat :=
  match digitRuns (expandK value) with
  | a :: b :: _ => (some a, some b)
  | [a] => (some a, some a)
  | [] => (none, none)

/-- The SKILL_DATABASE set literal from src/extractors/skills.py, in source
order; the set dedups the repeated "websocket" entry, so it appears once. -/
def SKILL_DATABASE : List String :=
  ["python", "javascript", "typescript", "java", "go", "rust", "c++", "c#", "ruby",
   "php", "swift", "kotlin", "scala", "r", "matlab", "perl", "shell",
   "react", "vue", "angular", "svelte", "next.js", "nuxt", "gatsby",
   "html", "css", "sass", "tailwind", "bootstrap", "webpack", "vite",
   "node.js", "express", "django", "flask", "fastapi", "rails", "spring",
   "graphql", "rest", "grpc", "websocket",
   "postgresql", "mysql", "mongodb", "redis", "elasticsearch", "dynamodb",
   "cassandra", "firebase", "supabase", "prisma",
   "aws", "gcp", "azure", "docker", "kubernetes", "terraform", "ansible",
   "jenkins", "github actions", "gitlab ci", "circleci", "cloudformation",
   "machine learning", "deep learning", "tensorflow", "pytorch", "keras",
   "nlp", "computer vision", "pandas", "numpy", "scikit-learn",
   "llm", "gpt", "langchain", "hugging face",
   "spark", "hadoop", "kafka", "airflow", "dbt", "etl", "data pipeline",
   "react native", "flutter", "ios", "android", "swiftui", "jetpack compose",
   "git", "linux", "agile", "scrum", "ci/cd", "rest api", "microservices",
   "system design", "oauth", "jwt"]

/-- Code-point lexicographic order on character lists, the order Python uses
to compare strings. -/
def lexLe : List Char → List Char → Bool
  | [], _ => true
  | _ :: _, [] => false
  | a :: as, b :: bs =>
    if a.toNat < b.toNat then true
    else if b.toNat < a.toNat then false
    else lexLe as bs

/-- Python string comparison a less-or-equal b. -/
def strLe (a b : String) : Bool := lexLe a.toList b.toList

/-- Insertion into an ascending list, used to model Python sorted(). -/
def insertSorted (a : String) : List String → List String
  | [] => [a]
  | b :: rest => if strLe a b then a :: b :: rest else b :: insertSorted a rest

/-- Python sorted() on a list of distinct strings (ascending code-point
lexicographic order). -/
def sortStrings (l : List String) : List String := l.foldr insertSorted []

/-- SkillsExtractor.extract_skills: lower-case the text once, collect every
vocabulary entry contained in it as a substring, return the sorted list. -/
def extract_skills (text : String) : List String :=
  sortStrings (SKILL_DATABASE.filter (fun skill => strContains (pyLower text) skill))

/-- The normalization mappings dict in SkillsExtractor.normalize_skill, in
source order; the duplicated "ts" key collapses to one dict entry. -/
def mappings : List (String × String) :=
  [("py", "python"), ("js", "javascript"), ("ts", "typescript"),
   ("reactjs", "react"), ("react.js", "react"),
   ("nodejs", "node.js"), ("node", "node.js"),
   ("postgres", "postgresql"), ("pg", "postgresql"),
   ("mongo", "mongodb"), ("redis", "redis"),
   ("aws", "aws"), ("gcp", "gcp"), ("azure", "azure"),
   ("ml", "machine learning"), ("dl", "deep learning"), ("tf", "tensorflow")]

/-- SkillsExtractor.normalize_skill: skill.lower().strip(), then dict lookup
with the folded string itself as default. -/
def normalize_skill (skill : String) : String :=
  let skillLower := pyStrip (pyLower skill)
  (mappings.lookup skillLower).getD skillLower

/-- The language_skills set in SkillsExtractor.categorize_skills. -/
def language_skills : List String :=
  ["python", "javascript", "typescript", "java", "go", "rust",
   "c++", "c#", "ruby", "php", "swift", "kotlin", "scala"]

/-- The frontend_skills set in SkillsExtractor.categorize_skills. -/
def frontend_skills : List String :=
  ["react", "vue", "angular", "svelte", "next.js", "html", "css"]

/-- The backend_skills set in SkillsExtractor.categorize_skills. -/
def backend_skills : List String :=
  ["node.js", "express", "django", "flask", "graphql", "rest"]

/-- The db_skills set in SkillsExtractor.categorize_skills. -/
def db_skills : List String :=
  ["postgresql", "mysql", "mongodb", "redis", "elasticsearch"]

/-- The cloud_skills set in SkillsExtractor.categorize_skills. -/
def cloud_skills : List String :=
  ["aws", "gcp", "azure", "docker", "kubernetes"]

/-- The ml_skills set in SkillsExtractor.categorize_skills. -/
def ml_skills : List String :=
  ["machine learning", "deep learning", "tensorflow", "pytorch", "nlp"]

/-- The keys of the categories dict in categorize_skills, in declaration
order (Python dicts preserve insertion order). -/
def categoryNames : List String :=
  ["languages", "frontend", "backend", "databases", "cloud", "ml_ai",
   "devops", "other"]

/-- The if/elif chain of categorize_skills: the bucket one skill is appended
to, i.e. the first membership test that succeeds, with "other" as the final
else branch. Nothing ever assigns to "devops". -/
def assignBucket (skill : String) : String :=
  if language_skills.contains skill then "languages"
  else if frontend_skills.contains skill then "frontend"
  else if backend_skills.contains skill then "backend"
  else if db_skills.contains skill then "databases"
  else if cloud_skills.contains skill then "cloud"
  else if ml_skills.contains skill then "ml_ai"
  else "other"

/-- SkillsExtractor.categorize_skills: each bucket, in dict order, holds the
input skills assigned to it in input order; the final dict comprehension drops
the buckets that stayed empty. -/
def categorize_skills (skills : List String) : List (String × List String) :=
  (categoryNames.map (fun name =>
      (name, skills.filter (fun s => assignBucket s == name)))).filter
    (fun kv => !kv.2.isEmpty)

/-- The dict returned by extract_from_job. -/
structure SkillReport where
  skills : List String
  categories : List (String × List String)
  total_count : Nat
  deriving DecidableEq, Repr

/-- extract_from_job: extract, categorize, and count. -/
def extract_from_job (job_text : String) : SkillReport :=
  let skills := extract_skills job_text
  { skills := skills
    categories := categorize_skills skills
    total_count := skills.length }

/-- Plain concatenation of a list of strings (no separator). -/
def concatStrings : List String → String
  | [] => ""
  | s :: rest => s ++ concatStrings rest

/-- The pydantic JobPosting model. The scraped_at wall-clock timestamp is
omitted from the embedding (datetime.now is not a function of the inputs and
no claim mentions it). -/
structure JobPosting where
  job_id : Int
  title : String
  company : String
  location : Option String := none
  department : Option String := none
  description : String := ""
  requirements : String := ""
  salary_min : Option Nat := none
  salary_max : Option Nat := none
  job_url : String
  posted_at : Option String := none
  deriving DecidableEq, Repr

/-- The expression job.get("location", \x7b\x7d).get("name") from
_parse_json_response and get_job_details, through pydantic Optional[str]
validation. -/
def extractLocation (job : Json) : Except PyErr (Option String) := do
  let loc ← dictGet job "location" (.obj [])
  let namev ← dictGet loc "name" .null
  asOptStr namev

/-- The expression
job.get("departments", [\x7b\x7d])[0].get("name") if job.get("departments") else None
from _parse_json_response and get_job_details. -/
def extractDepartment (job : Json) : Except PyErr (Option String) := do
  let cond ← dictGet job "departments" .null
  if truthy cond then
    let deps ← dictGet job "departments" (.arr [.obj []])
    let first ← indexZero deps
    let namev ← dictGet first "name" .null
    asOptStr namev
  else
    pure none

/-- Construction of one JobPosting inside the loop of _parse_json_response. -/
def parseJob (job : Json) (company : String) : Except PyErr JobPosting := do
  let idv ← dictGet job "id" (.num 0)
  let id ← asInt idv
  let titlev ← dictGet job "title" (.str "")
  let title ← asStr titlev
  let location ← extractLocation job
  let department ← extractDepartment job
  let urlv ← dictGet job "absolute_url" (.str "")
  let url ← asStr urlv
  let postedv ← dictGet job "updated_at" .null
  let posted ← asOptStr postedv
  pure { job_id := id, title := title, company := company, location := location,
         department := department, job_url := url, posted_at := posted }

/-- The jobs.append loop of _parse_json_response: one record per entry, in
order; the first exception aborts the loop and propagates. -/
def parseJobs : List Json → String → Except PyErr (List JobPosting)
  | [], _ => .ok []
  | job :: rest, company => do
    let j ← parseJob job company
    let js ← parseJobs rest company
    pure (j :: js)

/-- GreenhouseScraper._parse_json_response: one record per entry of the "jobs"
list; any exception while building a record propagates out of the method. -/
def parse_json_response (data : Json) (company : String) :
    Except PyErr (List JobPosting) := do
  let jobsv ← dictGet data "jobs" (.arr [])
  let jobs ← asList jobsv
  parseJobs jobs company

/-- A BeautifulSoup element: its get_text() value and its href attribute. -/
structure Elem where
  textContent : String
  href : Option String := none
  deriving DecidableEq, Repr

/-- One div matched by the job-card class search, as seen by the loop body:
the results of card.find("a"), card.find("h2") and the location span find. -/
structure HtmlCard where
  aElem : Option Elem := none
  h2Elem : Option Elem := none
  locationElem : Option Elem := none
  deriving DecidableEq, Repr

/-- An HTML response: its status code and the job cards BeautifulSoup finds in
its body (lenient parsing never raises, so the card list is the content). -/
structure HtmlResponse where
  status_code : Nat
  cards : List HtmlCard
  deriving DecidableEq, Repr

/-- A JSON API response: its status code and the result of response.json(),
which raises when the body is not valid JSON. -/
structure ApiResponse where
  status_code : Nat
  jsonBody : Except PyErr Json

/-- httpx Response.raise_for_status(): HTTPStatusError unless 2xx. -/
def raise_for_status (code : Nat) : Except PyErr Unit :=
  if 200 ≤ code ∧ code < 300 then .ok () else .error (.httpStatusError code)

/-- Stand-in for Python hash() on the title string: an opaque deterministic
integer (its value never matters to any claim). -/
def pyHash (s : String) : Int := Int.ofNat s.hash.toNat

/-- The body of the card loop in _scrape_html_board: cards without a title
element produce nothing; relative hrefs are rewritten onto the board host. -/
def cardPosting (board_token : String) (card : HtmlCard) : Option JobPosting :=
  match card.aElem <|> card.h2Elem with
  | none => none
  | some title_elem =>
    let title := pyStrip title_elem.textContent
    let url0 := title_elem.href.getD ""
    let url := if url0 != "" && !(url0.startsWith "http")
      then "https://" ++ board_token ++ ".greenhouse.io" ++ url0
      else url0
    some { job_id := pyHash title, title := title, company := board_token,
           location := card.locationElem.map (fun e => pyStrip e.textContent),
           job_url := url }

/-- GreenhouseScraper._scrape_html_board, as a function of the HTML fetch
outcome: the GET itself can fail, raise_for_status raises on non-2xx, and
neither is caught inside the method. -/
def scrape_html_board (board_token : String) (resp : Except PyErr HtmlResponse) :
    Except PyErr (List JobPosting) := do
  let r ← resp
  let _ ← raise_for_status r.status_code
  pure (r.cards.filterMap (cardPosting board_token))

/-- GreenhouseScraper.get_board_jobs, as a function of the two fetch outcomes:
the try block covers the JSON GET, response.json() and _parse_json_response;
any exception there, or a non-200 status, falls through to the HTML path. -/
def get_board_jobs (board_token : String) (apiResp : Except PyErr ApiResponse)
    (htmlResp : Except PyErr HtmlResponse) : Except PyErr (List JobPosting) :=
  let tryResult : Option (List JobPosting) :=
    match apiResp with
    | .error _ => none
    | .ok r =>
      if r.status_code == 200 then
        match r.jsonBody with
        | .error _ => none
        | .ok data =>
          match parse_json_response data board_token with
          | .error _ => none
          | .ok jobs => some jobs
      else none
  match tryResult with
  | some jobs => .ok jobs
  | none => scrape_html_board board_token htmlResp

/-- GreenhouseScraper._extract_salary: scan the metadata items; the first one
whose name contains "salary" and whose value has at least one digit run
determines the result; a salary item with no digits falls through to the
next item. -/
def extract_salary : List Json → Except PyErr (Option Nat × Option Nat)
  | [] => .ok (none, none)
  | item :: rest => do
    let namev ← dictGet item "name" (.str "")
    let name ← asStrMethod namev
    if strContains (pyLower name) "salary" then
      let valuev ← dictGet item "value" (.str "")
      let value ← asStrMethod valuev
      match digitRuns (expandK value) with
      | a :: b :: _ => pure (some a, some b)
      | [a] => pure (some a, some a)
      | [] => extract_salary rest
    else
      extract_salary rest

/-- GreenhouseScraper.get_job_details, as a function of the fetch outcome:
raise_for_status and every parse step propagate their exceptions. -/
def get_job_details (board_token : String) (job_id : Int)
    (resp : Except PyErr ApiResponse) : Except PyErr JobPosting := do
  let r ← resp
  let _ ← raise_for_status r.status_code
  let data ← r.jsonBody
  let metav ← dictGet data "metadata" (.arr [])
  let meta ← asList metav
  let sal ← extract_salary meta
  let titlev ← dictGet data "title" (.str "")
  let title ← asStr titlev
  let location ← extractLocation data
  let department ← extractDepartment data
  let descv ← dictGet data "content" (.str "")
  let desc ← asStr descv
  let reqv ← dictGet data "requirements" (.str "")
  let req ← asStr reqv
  let urlv ← dictGet data "absolute_url" (.str "")
  let url ← asStr urlv
  let postedv ← dictGet data "updated_at" .null
  let posted ← asOptStr postedv
  pure { job_id := job_id, title := title, company := board_token,
         location := location, department := department, description := desc,
         requirements := req, salary_min := sal.1, salary_max := sal.2,
         job_url := url, posted_at := posted }

/-- C2 counterexample: the salary phrase parser applied to the string
dollars-120,000 does not return (120000, 120000); the comma splits the digit
runs, so two numbers 120 and 000 are found. -/
theorem C2_salary_comma_counterexample :
    parseSalaryValue "$120,000" ≠ (some 120000, some 120000) := by decide

/-- C2 amended: the salary phrase parser applied to the string dollars-120,000
returns the bounds (120, 0): the comma splits the digits into the maximal runs
120 and 000, at least two numbers are found, and the first two are taken
verbatim as (min, max). -/
theorem C2_salary_comma_amended :
    parseSalaryValue "$120,000" = (some 120, some 0) := by decide

/-- C6: for every input string the salary phrase parser first expands every
k and K to 000, then takes the maximal digit runs left to right; two or more
numbers give (first, second) verbatim with no reordering (so "150k-90k" gives
(150000, 90000)), exactly one number gives that number for both bounds, and no
number gives both bounds absent. -/
theorem C6_salary_parser_policy :
    (∀ s a b rest, digitRuns (expandK s) = a :: b :: rest →
        parseSalaryValue s = (some a, some b)) ∧
    (∀ s a, digitRuns (expandK s) = [a] → parseSalaryValue s = (some a, some a)) ∧
    (∀ s, digitRuns (expandK s) = [] → parseSalaryValue s = (none, none)) ∧
    parseSalaryValue "150k-90k" = (some 150000, some 90000) := by
  refine ⟨?_, ?_, ?_, by decide⟩
  · intro s a b rest h
    unfold parseSalaryValue
    rw [h]
  · intro s a h
    unfold parseSalaryValue
    rw [h]
  · intro s h
    unfold parseSalaryValue
    rw [h]

/-- Witness for C6 at a concrete input with two digit runs. -/
theorem C6_salary_parser_policy_witness :
    digitRuns (expandK "5 7") = [5, 7] ∧ parseSalaryValue "5 7" = (some 5, some 7) :=
  ⟨by decide, C6_salary_parser_policy.1 "5 7" 5 7 [] (by decide)⟩

/-- C3 counterexample: extract_from_job on the text
"Python, React, PostgreSQL, AWS, Docker" does not report five skills: the
substring matcher also finds the vocabulary entry "r" inside "react", so the
count is six. -/
theorem C3_extract_from_job_counterexample :
    (extract_from_job "Python, React, PostgreSQL, AWS, Docker").total_count ≠ 5 := by
  decide

/-- C3 amended: extract_from_job on the text
"Python, React, PostgreSQL, AWS, Docker" reports total_count six (the five
listed skills plus the one-letter entry "r" matched inside "react"), and its
categories mapping holds exactly the non-empty entries languages, frontend,
databases, cloud and other. -/
theorem C3_extract_from_job_amended :
    (extract_from_job "Python, React, PostgreSQL, AWS, Docker").total_count = 6 ∧
    (extract_from_job "Python, React, PostgreSQL, AWS, Docker").categories =
      [("languages", ["python"]), ("frontend", ["react"]),
       ("databases", ["postgresql"]), ("cloud", ["aws", "docker"]),
       ("other", ["r"])] := by
  constructor
  · decide
  · decide

/-- The if/elif chain never lands a skill in the devops bucket. -/
theorem assignBucket_ne_devops (s : String) : assignBucket s ≠ "devops" := by
  unfold assignBucket
  repeat' split
  all_goals decide

/-- The bucket assigned to a skill occurs exactly once among the dict keys. -/
theorem assignBucket_count (s : String) : categoryNames.count (assignBucket s) = 1 := by
  unfold assignBucket
  repeat' split
  all_goals decide

/-- The bucket membership table in priority order, and the first bucket whose
set contains the skill ("other" when none does): the declarative reading of
the if/elif chain in categorize_skills. -/
def bucketTable : List (String × List String) :=
  [("languages", language_skills), ("frontend", frontend_skills),
   ("backend", backend_skills), ("databases", db_skills),
   ("cloud", cloud_skills), ("ml_ai", ml_skills)]

/-- The first bucket of bucketTable that contains the skill. -/
def firstBucket (s : String) : String :=
  match bucketTable.find? (fun kv => kv.2.contains s) with
  | some kv => kv.1
  | none => "other"

/-- The if/elif chain assigns exactly the first matching bucket. -/
theorem assignBucket_eq_firstBucket (s : String) : assignBucket s = firstBucket s := by
  unfold assignBucket firstBucket bucketTable
  by_cases h1 : s ∈ language_skills <;>
    by_cases h2 : s ∈ frontend_skills <;>
      by_cases h3 : s ∈ backend_skills <;>
        by_cases h4 : s ∈ db_skills <;>
          by_cases h5 : s ∈ cloud_skills <;>
            by_cases h6 : s ∈ ml_skills <;>
              simp [List.find?, h1, h2, h3, h4, h5, h6]

/-- Pulling the head element out of the per-bucket filter lengths. -/
theorem map_filter_cons_sum (names : List String) (s : String) (rest : List String) :
    (names.map (fun n => (List.filter (fun x => assignBucket x == n) (s :: rest)).length)).sum
      = names.count (assignBucket s)
        + (names.map (fun n => (List.filter (fun x => assignBucket x == n) rest).length)).sum := by
  induction names with
  | nil => simp
  | cons n ns ih =>
    simp only [List.map_cons, List.sum_cons, List.count_cons, List.filter_cons] at ih ⊢
    by_cases h : assignBucket s = n
    · have hb : (assignBucket s == n) = true := beq_iff_eq.2 h
      have hb2 : (n == assignBucket s) = true := beq_iff_eq.2 h.symm
      simp only [hb, hb2, if_true, List.length_cons]
      rw [ih]
      omega
    · have hb : (assignBucket s == n) = false := beq_eq_false_iff_ne.2 h
      have hb2 : (n == assignBucket s) = false := beq_eq_false_iff_ne.2 (Ne.symm h)
      simp only [hb, hb2, Bool.false_eq_true, if_false]
      rw [ih]
      omega

/-- Before dropping empty buckets, the bucket sizes sum to the input length. -/
theorem sum_bucket_lengths (skills : List String) :
    (categoryNames.map
        (fun n => (skills.filter (fun x => assignBucket x == n)).length)).sum
      = skills.length := by
  induction skills with
  | nil => simp
  | cons s rest ih =>
    rw [map_filter_cons_sum, assignBucket_count, ih]
    simp [Nat.add_comm]

/-- Dropping empty buckets does not change the sum of bucket sizes. -/
theorem sum_filter_nonempty (l : List (String × List String)) :
    ((l.filter (fun kv => !kv.2.isEmpty)).map (fun kv => kv.2.length)).sum
      = (l.map (fun kv => kv.2.length)).sum := by
  induction l with
  | nil => rfl
  | cons kv rest ih =>
    cases h : kv.2.isEmpty with
    | true =>
      have hlen : kv.2.length = 0 := by
        cases hv : kv.2
        · rfl
        · rw [hv] at h
          simp [List.isEmpty] at h
      simp [List.filter_cons, h, ih, hlen]
    | false => simp [List.filter_cons, h, ih]

/-- Decomposition of membership in the categorize_skills result. -/
theorem mem_categorize (skills : List String) (b : String) (vs : List String)
    (h : (b, vs) ∈ categorize_skills skills) :
    b ∈ categoryNames ∧ vs = skills.filter (fun x => assignBucket x == b) ∧ vs ≠ [] := by
  unfold categorize_skills at h
  obtain ⟨hmem, hne⟩ := List.mem_filter.1 h
  obtain ⟨name, hname, heq⟩ := List.mem_map.1 hmem
  injection heq with heq1 heq2
  subst heq1
  subst heq2
  refine ⟨hname, rfl, ?_⟩
  intro hnil
  rw [hnil] at hne
  simp at hne

/-- C7 counterexample: on the input sequence ["python", "python"] the bucket
sizes sum to 2, the length of the input, while the number of distinct input
skills is 1: the loop appends duplicates, so the claimed equality with the
distinct count fails. -/
theorem C7_sum_counterexample :
    ((categorize_skills ["python", "python"]).map (fun kv => kv.2.length)).sum = 2 ∧
    (["python", "python"] : List String).dedup.length = 1 := by
  constructor
  · decide
  · simp

/-- C7 amended: each skill lands in exactly the first bucket matching it in
the priority order languages, frontend, backend, databases, cloud, ml_ai,
other, and the bucket sizes sum to the length of the input sequence (which
equals the number of distinct input skills exactly when the input is
duplicate-free, as the lists produced by extract_skills are). -/
theorem C7_categorizer_partition :
    (∀ skills : List String,
        ((categorize_skills skills).map (fun kv => kv.2.length)).sum = skills.length) ∧
    (∀ skills b vs s, (b, vs) ∈ categorize_skills skills → s ∈ vs →
        b = firstBucket s) := by
  constructor
  · intro skills
    unfold categorize_skills
    rw [sum_filter_nonempty, List.map_map]
    simpa [Function.comp] using sum_bucket_lengths skills
  · intro skills b vs s hmem hs
    obtain ⟨hb, hvs, hne⟩ := mem_categorize _ _ _ hmem
    subst hvs
    have hx := List.mem_filter.1 hs
    have hba : assignBucket s = b := by simpa using hx.2
    rw [← hba, assignBucket_eq_firstBucket]

/-- Witness for C7 at concrete inputs. -/
theorem C7_categorizer_partition_witness :
    ((categorize_skills ["python", "go"]).map (fun kv => kv.2.length)).sum = 2 ∧
    "languages" = firstBucket "python" := by
  constructor
  · have h := C7_categorizer_partition.1 ["python", "go"]
    simpa using h
  · exact C7_categorizer_partition.2 ["python", "go"] "languages" ["python", "go"]
      "python" (by decide) (by decide)

/-- C10: every key of the categorize_skills result is one of the seven
bucket names languages, frontend, backend, databases, cloud, ml_ai, other;
the declared devops bucket never appears since no skill is assigned to it. -/
theorem C10_no_devops_bucket :
    ∀ skills b vs, (b, vs) ∈ categorize_skills skills →
      b ∈ (["languages", "frontend", "backend", "databases", "cloud",
            "ml_ai", "other"] : List String) := by
  intro skills b vs h
  obtain ⟨hb, hvs, hne⟩ := mem_categorize _ _ _ h
  by_cases hdev : b = "devops"
  · exfalso
    apply hne
    rw [hvs, List.filter_eq_nil_iff]
    intro x hx
    simp only [beq_eq_false_iff_ne, ne_eq, hdev]
    simp [assignBucket_ne_devops x]
  · simp only [categoryNames, List.mem_cons, List.not_mem_nil, or_false] at hb
    rcases hb with rfl | rfl | rfl | rfl | rfl | rfl | rfl | rfl <;> simp_all

/-- Witness for C10 at a concrete input. -/
theorem C10_no_devops_bucket_witness :
    ("languages", ["python"]) ∈ categorize_skills ["python"] ∧
    "languages" ∈ (["languages", "frontend", "backend", "databases", "cloud",
                    "ml_ai", "other"] : List String) :=
  ⟨by decide, C10_no_devops_bucket ["python"] "languages" ["python"] (by decide)⟩

/-- Characters are determined by their code points. -/
theorem char_toNat_inj {a b : Char} (h : a.toNat = b.toNat) : a = b :=
  Char.ext (UInt32.toNat.inj h)

/-- Char.ofNat recovers small code points. -/
theorem charToNat_ofNat_small (n : Nat) (h : n < 55000) : (Char.ofNat n).toNat = n := by
  have hv : n.isValidChar := Or.inl (by omega)
  simp [Char.ofNat, hv, Char.ofNatAux, Char.toNat, UInt32.toNat, UInt32.ofNatCore]

/-- The code point of the ASCII-lowered character. -/
theorem lowerChar_toNat (c : Char) :
    (lowerChar c).toNat =
      if 65 ≤ c.toNat ∧ c.toNat ≤ 90 then c.toNat + 32 else c.toNat := by
  unfold lowerChar
  split
  · next h =>
    rw [charToNat_ofNat_small _ (by omega)]
  · rfl

/-- ASCII lowering is idempotent. -/
theorem lowerChar_idem (c : Char) : lowerChar (lowerChar c) = lowerChar c := by
  apply char_toNat_inj
  simp only [lowerChar_toNat]
  split_ifs <;> omega

/-- ASCII lowering neither creates nor destroys whitespace. -/
theorem isPySpace_lowerChar (c : Char) : isPySpace (lowerChar c) = isPySpace c := by
  unfold isPySpace
  rw [lowerChar_toNat]
  split_ifs with hc
  · exact decide_eq_decide.2 (by omega)
  · rfl

/-- Lower-casing commutes with dropping leading whitespace. -/
theorem dropWhile_map_lower (l : List Char) :
    (l.map lowerChar).dropWhile isPySpace = (l.dropWhile isPySpace).map lowerChar := by
  induction l with
  | nil => rfl
  | cons c cs ih =>
    simp only [List.map_cons, List.dropWhile_cons, isPySpace_lowerChar]
    by_cases h : isPySpace c
    · simp [h, ih]
    · simp [h]

/-- Lower-casing commutes with stripping. -/
theorem stripList_map_lower (l : List Char) :
    stripList (l.map lowerChar) = (stripList l).map lowerChar := by
  unfold stripList
  rw [dropWhile_map_lower, ← List.map_reverse, dropWhile_map_lower, List.map_reverse]

/-- Dropping leading whitespace twice is the same as doing it once. -/
theorem dropWhile_dropWhile (p : Char → Bool) (l : List Char) :
    (l.dropWhile p).dropWhile p = l.dropWhile p := by
  induction l with
  | nil => rfl
  | cons c cs ih =>
    by_cases h : p c
    · simp [List.dropWhile_cons, h, ih]
    · simp [List.dropWhile_cons, h]

/-- A left part of a dropWhile fixed point is itself a fixed point. -/
theorem dropWhile_eq_self_append (p : Char → Bool) (B u : List Char)
    (hA : (B ++ u).dropWhile p = B ++ u) : B.dropWhile p = B := by
  cases B with
  | nil => rfl
  | cons b bs =>
    by_cases h : p b
    · exfalso
      rw [List.cons_append, List.dropWhile_cons, if_pos h] at hA
      have hlen := congrArg List.length hA
      have hle : (List.dropWhile p (bs ++ u)).length ≤ (bs ++ u).length :=
        (List.dropWhile_sublist _).length_le
      simp only [List.length_cons] at hlen
      omega
    · simp [List.dropWhile_cons, h]

/-- Stripping is idempotent. -/
theorem stripList_idem (l : List Char) : stripList (stripList l) = stripList l := by
  have hAfix := dropWhile_dropWhile isPySpace l
  obtain ⟨t, ht⟩ := List.dropWhile_suffix (l := (l.dropWhile isPySpace).reverse) isPySpace
  have hfront : stripList l ++ t.reverse = l.dropWhile isPySpace := by
    unfold stripList
    rw [← List.reverse_append, ht, List.reverse_reverse]
  have hBfix : (stripList l).dropWhile isPySpace = stripList l := by
    apply dropWhile_eq_self_append isPySpace _ t.reverse
    rw [hfront]
    exact hAfix
  show ((((stripList l).dropWhile isPySpace).reverse.dropWhile isPySpace)).reverse
      = stripList l
  rw [hBfix]
  have hback : (stripList l).reverse = (l.dropWhile isPySpace).reverse.dropWhile isPySpace := by
    unfold stripList
    rw [List.reverse_reverse]
  rw [hback, dropWhile_dropWhile, ← hback, List.reverse_reverse]

/-- String-level: lower-casing is idempotent. -/
theorem pyLower_idem (s : String) : pyLower (pyLower s) = pyLower s := by
  unfold pyLower
  apply congrArg
  show (s.toList.map lowerChar).map lowerChar = s.toList.map lowerChar
  rw [List.map_map]
  exact List.map_congr_left (fun a _ => lowerChar_idem a)

/-- String-level: lower-casing commutes with stripping. -/
theorem pyLower_pyStrip (s : String) : pyLower (pyStrip s) = pyStrip (pyLower s) := by
  unfold pyLower pyStrip
  apply congrArg
  show (stripList s.toList).map lowerChar = stripList (s.toList.map lowerChar)
  rw [stripList_map_lower]

/-- String-level: stripping is idempotent. -/
theorem pyStrip_idem (s : String) : pyStrip (pyStrip s) = pyStrip s := by
  unfold pyStrip
  apply congrArg
  show stripList (stripList s.toList) = stripList s.toList
  exact stripList_idem s.toList

/-- The case-fold-and-trim step of normalize_skill is idempotent. -/
theorem pyFold_idem (s : String) :
    pyStrip (pyLower (pyStrip (pyLower s))) = pyStrip (pyLower s) := by
  rw [pyLower_pyStrip, pyLower_idem, pyStrip_idem]

/-- A successful dict lookup yields one of the dict values. -/
theorem lookup_mem_snd (ps : List (String × String)) (k v : String)
    (h : ps.lookup k = some v) : v ∈ ps.map Prod.snd := by
  induction ps with
  | nil => simp [List.lookup] at h
  | cons p rest ih =>
    obtain ⟨a, b⟩ := p
    by_cases hk : (k == a) = true
    · simp only [List.lookup, hk] at h
      injection h with h
      subst h
      simp
    · simp only [List.lookup, hk] at h
      exact List.mem_cons_of_mem _ (ih h)

/-- Every value of the normalization dict is a fixed point of normalize_skill. -/
theorem mappings_values_fixed : ∀ v ∈ mappings.map Prod.snd, normalize_skill v = v := by
  decide

/-- C9: normalize_skill is a pure total function: equal inputs give equal
outputs, an input whose case-folded and trimmed form is not a key of the
mapping comes back as exactly that folded form (a fixed point), and applying
normalize_skill twice equals applying it once, for every input string. -/
theorem C9_normalize_total_idempotent :
    (∀ x y : String, x = y → normalize_skill x = normalize_skill y) ∧
    (∀ x : String, mappings.lookup (pyStrip (pyLower x)) = none →
        normalize_skill x = pyStrip (pyLower x)) ∧
    (∀ x : String, normalize_skill (normalize_skill x) = normalize_skill x) := by
  refine ⟨fun x y h => by rw [h], ?_, ?_⟩
  · intro x h
    simp only [normalize_skill, h, Option.getD_none]
  · intro x
    cases h : mappings.lookup (pyStrip (pyLower x)) with
    | none =>
      have h1 : normalize_skill x = pyStrip (pyLower x) := by
        simp only [normalize_skill, h, Option.getD_none]
      rw [h1]
      simp only [normalize_skill, pyFold_idem, h, Option.getD_none]
    | some v =>
      have h1 : normalize_skill x = v := by
        simp only [normalize_skill, h, Option.getD_some]
      rw [h1]
      exact mappings_values_fixed v (lookup_mem_snd _ _ _ h)

/-- Witness for C9 at the concrete unmapped input "Rust " (with a trailing
space and a capital letter). -/
theorem C9_normalize_total_idempotent_witness :
    mappings.lookup (pyStrip (pyLower "Rust ")) = none ∧
    normalize_skill "Rust " = pyStrip (pyLower "Rust ") :=
  ⟨by decide, C9_normalize_total_idempotent.2.1 "Rust " (by decide)⟩

/-- startsWithList tests for a prefix occurrence. -/
theorem startsWithList_iff (needle : List Char) : ∀ hay,
    startsWithList needle hay = true ↔ ∃ rest, hay = needle ++ rest := by
  induction needle with
  | nil => intro hay; simp [startsWithList]
  | cons a as ih =>
    intro hay
    cases hay with
    | nil =>
      simp [startsWithList]
    | cons b bs =>
      simp only [startsWithList, Bool.and_eq_true, beq_iff_eq, ih, List.cons_append]
      constructor
      · rintro ⟨rfl, rest, rfl⟩
        exact ⟨rest, rfl⟩
      · rintro ⟨rest, heq⟩
        injection heq with h1 h2
        exact ⟨h1.symm, rest, h2⟩

/-- infixOfList tests for a substring occurrence. -/
theorem infixOfList_iff (needle : List Char) : ∀ hay,
    infixOfList needle hay = true ↔ ∃ pre post, hay = pre ++ needle ++ post := by
  intro hay
  induction hay with
  | nil =>
    constructor
    · intro h
      have hn : needle = [] := by simpa [infixOfList, List.isEmpty_iff] using h
      exact ⟨[], [], by simp [hn]⟩
    · rintro ⟨pre, post, h⟩
      have h' := h.symm
      simp only [List.append_assoc, List.append_eq_nil] at h'
      simp [infixOfList, List.isEmpty_iff, h'.2.1]
  | cons b bs ih =>
    simp only [infixOfList, Bool.or_eq_true, ih, startsWithList_iff]
    constructor
    · rintro (⟨rest, hr⟩ | ⟨pre, post, hp⟩)
      · exact ⟨[], rest, by simpa using hr⟩
      · exact ⟨b :: pre, post, by simp [hp]⟩
    · rintro ⟨pre, post, hp⟩
      cases pre with
      | nil =>
        left
        exact ⟨post, by simpa using hp⟩
      | cons p ps =>
        right
        simp only [List.cons_append, List.append_assoc] at hp
        injection hp with h1 h2
        exact ⟨ps, post, by simpa [List.append_assoc] using h2⟩

/-- Membership through sorted insertion. -/
theorem mem_insertSorted (x a : String) (l : List String) :
    x ∈ insertSorted a l ↔ x = a ∨ x ∈ l := by
  induction l with
  | nil => simp [insertSorted]
  | cons b rest ih =>
    unfold insertSorted
    by_cases h : strLe a b = true
    · simp [h]
    · simp only [h, if_false, Bool.false_eq_true, List.mem_cons, ih]
      tauto

/-- Sorting does not change membership. -/
theorem mem_sortStrings (x : String) (l : List String) :
    x ∈ sortStrings l ↔ x ∈ l := by
  induction l with
  | nil => simp [sortStrings]
  | cons a rest ih =>
    rw [show sortStrings (a :: rest) = insertSorted a (sortStrings rest) from rfl,
      mem_insertSorted]
    simp [ih]

/-- Membership in the extract_skills result. -/
theorem mem_extract_skills (s text : String) :
    s ∈ extract_skills text ↔
      s ∈ SKILL_DATABASE ∧ strContains (pyLower text) s = true := by
  unfold extract_skills
  rw [mem_sortStrings, List.mem_filter]

/-- String append acts as list append on the character lists. -/
theorem toList_append (a b : String) : (a ++ b).toList = a.toList ++ b.toList :=
  String.data_append a b

/-- An element of a list of strings occurs as a substring of the plain
concatenation of that list. -/
theorem mem_concat_infix (s : String) (l : List String) (h : s ∈ l) :
    ∃ pre post, (concatStrings l).toList = pre ++ s.toList ++ post := by
  induction l with
  | nil => simp at h
  | cons a rest ih =>
    rcases List.mem_cons.1 h with rfl | hmem
    · refine ⟨[], (concatStrings rest).toList, ?_⟩
      show (s ++ concatStrings rest).toList = [] ++ s.toList ++ _
      rw [toList_append]
      simp
    · obtain ⟨pre, post, hp⟩ := ih hmem
      refine ⟨a.toList ++ pre, post, ?_⟩
      show (a ++ concatStrings rest).toList = a.toList ++ pre ++ s.toList ++ post
      rw [toList_append, hp]
      simp [List.append_assoc]

/-- Lower-casing distributes over string append. -/
theorem pyLower_append (a b : String) : pyLower (a ++ b) = pyLower a ++ pyLower b := by
  unfold pyLower
  rw [toList_append, List.map_append]
  rfl

/-- A concatenation of already-lower-case strings is already lower-case. -/
theorem pyLower_concat_fixed (l : List String) (h : ∀ x ∈ l, pyLower x = x) :
    pyLower (concatStrings l) = concatStrings l := by
  induction l with
  | nil => rfl
  | cons a rest ih =>
    show pyLower (a ++ concatStrings rest) = a ++ concatStrings rest
    rw [pyLower_append, h a (by simp), ih (fun x hx => h x (by simp [hx]))]

/-- Every vocabulary entry is already lower-case. -/
theorem skillDB_lower_fixed : ∀ d ∈ SKILL_DATABASE, pyLower d = d := by decide

/-- C8 counterexample: on the text "deep learning oauth" the matcher finds
the set containing "deep learning", "oauth" and "r"; concatenating that output
gives "deep learningoauthr", where the entry "go" newly matches across a piece
boundary, so re-matching the concatenation is not the identity. -/
theorem C8_idempotence_counterexample :
    extract_skills (concatStrings (extract_skills "deep learning oauth")) ≠
      extract_skills "deep learning oauth" := by decide

/-- C8 amended: re-matching the plain concatenation of the matcher output
always yields a superset of the original skill set (each found skill occurs
verbatim in the concatenation), but not always the same set, since new
vocabulary entries can match across the boundaries of adjacent pieces. -/
theorem C8_match_superset :
    ∀ text s, s ∈ extract_skills text →
      s ∈ extract_skills (concatStrings (extract_skills text)) := by
  intro text s hs
  have h1 := (mem_extract_skills s text).1 hs
  apply (mem_extract_skills s _).2
  refine ⟨h1.1, ?_⟩
  have hfix : pyLower (concatStrings (extract_skills text))
      = concatStrings (extract_skills text) := by
    apply pyLower_concat_fixed
    intro x hx
    exact skillDB_lower_fixed x ((mem_extract_skills x text).1 hx).1
  unfold strContains
  rw [hfix, infixOfList_iff]
  exact mem_concat_infix s _ hs

/-- Witness for C8 at the concrete text "python". -/
theorem C8_match_superset_witness :
    "python" ∈ extract_skills "python" ∧
    "python" ∈ extract_skills (concatStrings (extract_skills "python")) :=
  ⟨by decide, C8_match_superset "python" "python" (by decide)⟩

/-- Bind in the Except monad succeeds exactly when both steps do. -/
theorem exceptBind_eq_ok {α β : Type} {e : Except PyErr α} {f : α → Except PyErr β}
    {b : β} : (e >>= f) = .ok b ↔ ∃ a, e = .ok a ∧ f a = .ok b := by
  cases e <;> simp [Bind.bind, Except.bind]

/-- A record built by the json loop body carries the company it was given. -/
theorem parseJob_company (job : Json) (c : String) (j : JobPosting)
    (h : parseJob job c = .ok j) : j.company = c := by
  simp only [parseJob, exceptBind_eq_ok, pure, Except.pure, Except.ok.injEq] at h
  obtain ⟨a1, h1, a2, h2, a3, h3, a4, h4, a5, h5, a6, h6, a7, h7, a8, h8, a9, h9,
    a10, h10, hj⟩ := h
  subst hj
  rfl

/-- Every record produced by the json loop carries the given company. -/
theorem parseJobs_company : ∀ (js : List Json) (c : String) (out : List JobPosting),
    parseJobs js c = .ok out → ∀ j ∈ out, j.company = c := by
  intro js
  induction js with
  | nil =>
    intro c out h j hj
    simp only [parseJobs, Except.ok.injEq] at h
    subst h
    simp at hj
  | cons x rest ih =>
    intro c out h j hj
    simp only [parseJobs, exceptBind_eq_ok, pure, Except.pure, Except.ok.injEq] at h
    obtain ⟨a, ha, as, has, hout⟩ := h
    subst hout
    rcases List.mem_cons.1 hj with rfl | hmem
    · exact parseJob_company x c j ha
    · exact ih c as has j hmem

/-- Every record emitted by the HTML card loop carries the board token as its
company. -/
theorem cardPosting_company (token : String) (card : HtmlCard) (j : JobPosting)
    (h : cardPosting token card = some j) : j.company = token := by
  unfold cardPosting at h
  split at h
  · exact absurd h (by simp)
  · injection h with h
    subst h
    rfl

/-- C4 counterexample: a jobs entry with no absolute_url is parsed into a
record whose apply_url is the empty string and is emitted, not dropped. -/
theorem C4_empty_url_counterexample :
    parse_json_response
        (Json.obj [("jobs",
          Json.arr [Json.obj [("id", Json.num 1), ("title", Json.str "X")]])])
        "airbnb"
      = Except.ok [{ job_id := 1, title := "X", company := "airbnb", job_url := "" }] :=
  rfl

/-- C4 amended: every record emitted by the JSON path or the HTML path carries
company equal to the employer token it was fetched with (hence non-empty
whenever the token is non-empty), but apply_url may be the empty string: an
entry with no absolute_url (JSON) or no href (HTML) is emitted with an empty
apply_url rather than dropped. -/
theorem C4_company_from_token :
    (∀ data token out, parse_json_response data token = .ok out →
        ∀ j ∈ out, j.company = token) ∧
    (∀ token resp out, scrape_html_board token resp = .ok out →
        ∀ j ∈ out, j.company = token) := by
  constructor
  · intro data token out h j hj
    simp only [parse_json_response, exceptBind_eq_ok] at h
    obtain ⟨a1, h1, a2, h2, h3⟩ := h
    exact parseJobs_company a2 token out h3 j hj
  · intro token resp out h j hj
    simp only [scrape_html_board, exceptBind_eq_ok, pure, Except.pure,
      Except.ok.injEq] at h
    obtain ⟨r, hr, u, hu, hout⟩ := h
    subst hout
    obtain ⟨card, hcard, hc⟩ := List.mem_filterMap.1 hj
    exact cardPosting_company token card j hc

/-- Witness for C4 at the concrete payload with a missing absolute_url. -/
theorem C4_company_from_token_witness :
    parse_json_response
        (Json.obj [("jobs",
          Json.arr [Json.obj [("id", Json.num 1), ("title", Json.str "X")]])])
        "airbnb"
      = Except.ok [{ job_id := 1, title := "X", company := "airbnb", job_url := "" }] ∧
    ({ job_id := 1, title := "X", company := "airbnb", job_url := "" } : JobPosting).company
      = "airbnb" :=
  ⟨rfl,
   C4_company_from_token.1
     (Json.obj [("jobs",
       Json.arr [Json.obj [("id", Json.num 1), ("title", Json.str "X")]])])
     "airbnb"
     [{ job_id := 1, title := "X", company := "airbnb", job_url := "" }]
     rfl
     { job_id := 1, title := "X", company := "airbnb", job_url := "" }
     (by simp)⟩

/-- C5 counterexample: a job entry whose "location" key holds null makes the
location extraction raise AttributeError instead of yielding an absent field;
the error aborts _parse_json_response and propagates out of get_job_details. -/
theorem C5_null_location_counterexample :
    extractLocation (Json.obj [("location", Json.null)]) = .error .attributeError ∧
    parse_json_response
        (Json.obj [("jobs", Json.arr [Json.obj [("location", Json.null)]])]) "stripe"
      = .error .attributeError ∧
    get_job_details "stripe" 1 (.ok ⟨200, .ok (Json.obj [("location", Json.null)])⟩)
      = .error .attributeError :=
  ⟨rfl, rfl, rfl⟩

/-- C5 amended: a missing "location" key, a location object without "name",
a missing "departments" key, and an empty departments list all yield absent
fields without raising; but a null value at the nested level (such as
location: null) raises AttributeError rather than yielding an absent field
(the exception is caught by get_board_jobs, which then tries the HTML
fallback, and propagates out of get_job_details). -/
theorem C5_absent_nested_fields :
    (∀ kvs : List (String × Json), kvs.lookup "location" = none →
        extractLocation (.obj kvs) = .ok none) ∧
    (∀ (kvs nkvs : List (String × Json)),
        kvs.lookup "location" = some (.obj nkvs) → nkvs.lookup "name" = none →
        extractLocation (.obj kvs) = .ok none) ∧
    (∀ kvs : List (String × Json), kvs.lookup "departments" = none →
        extractDepartment (.obj kvs) = .ok none) ∧
    (∀ kvs : List (String × Json), kvs.lookup "departments" = some (.arr []) →
        extractDepartment (.obj kvs) = .ok none) := by
  refine ⟨?_, ?_, ?_, ?_⟩
  · intro kvs h
    simp [extractLocation, dictGet, h, Bind.bind, Except.bind, asOptStr]
  · intro kvs nkvs h hn
    simp [extractLocation, dictGet, h, hn, Bind.bind, Except.bind, asOptStr]
  · intro kvs h
    simp [extractDepartment, dictGet, h, Bind.bind, Except.bind, truthy, pure,
      Except.pure]
  · intro kvs h
    simp [extractDepartment, dictGet, h, Bind.bind, Except.bind, truthy,
      List.isEmpty, pure, Except.pure]

/-- Witness for C5 at the concrete empty job object. -/
theorem C5_absent_nested_fields_witness :
    (List.lookup "location" ([] : List (String × Json)) = none) ∧
    extractLocation (Json.obj []) = .ok none :=
  ⟨rfl, C5_absent_nested_fields.1 [] rfl⟩

/-- C1 counterexample: when the JSON GET raises a connection error and the
HTML GET does too, get_board_jobs surfaces the exception instead of an empty
list: the HTML fallback path has no try/except around its GET and
raise_for_status. -/
theorem C1_propagation_counterexample :
    get_board_jobs "airbnb" (.error .connError) (.error .connError)
      = .error .connError ∧
    get_board_jobs "airbnb" (.error .connError) (.error .connError)
      ≠ .ok [] :=
  ⟨rfl, fun h => Except.noConfusion h⟩

/-- C1 amended: every transport or parse failure on the JSON-API path is
caught and falls through to the HTML fallback (transport error, non-200
status, unparseable body, record-construction failure all included); but the
HTML-fallback path itself propagates its failures to the caller: a transport
error on the HTML GET surfaces as that error, and a non-2xx HTML status
surfaces as an HTTPStatusError via raise_for_status. -/
theorem C1_json_fallback_html_propagates :
    (∀ (token : String) (e : PyErr) (htmlResp : Except PyErr HtmlResponse),
        get_board_jobs token (.error e) htmlResp
          = scrape_html_board token htmlResp) ∧
    (∀ (token : String) (r : ApiResponse) (htmlResp : Except PyErr HtmlResponse),
        r.status_code ≠ 200 →
        get_board_jobs token (.ok r) htmlResp = scrape_html_board token htmlResp) ∧
    (∀ (token : String) (code : Nat) (e : PyErr)
        (htmlResp : Except PyErr HtmlResponse),
        get_board_jobs token (.ok ⟨code, .error e⟩) htmlResp
          = scrape_html_board token htmlResp) ∧
    (∀ (token : String) (data : Json) (e : PyErr)
        (htmlResp : Except PyErr HtmlResponse),
        parse_json_response data token = .error e →
        get_board_jobs token (.ok ⟨200, .ok data⟩) htmlResp
          = scrape_html_board token htmlResp) ∧
    (∀ (token : String) (e : PyErr),
        scrape_html_board token (.error e) = .error e) ∧
    (∀ (token : String) (r : HtmlResponse),
        ¬(200 ≤ r.status_code ∧ r.status_code < 300) →
        scrape_html_board token (.ok r)
          = .error (.httpStatusError r.status_code)) := by
  refine ⟨fun token e htmlResp => rfl, ?_, ?_, ?_, fun token e => rfl, ?_⟩
  · intro token r htmlResp h
    have hb : (r.status_code == 200) = false := beq_eq_false_iff_ne.2 h
    simp only [get_board_jobs, hb, Bool.false_eq_true, if_false]
  · intro token code e htmlResp
    simp only [get_board_jobs]
    split
    · next jobs h =>
      exfalso
      by_cases hc : (code == 200) = true <;> simp [hc] at h
    · rfl
  · intro token data e htmlResp h
    simp only [get_board_jobs, h]
    rfl
  · intro token r h
    simp [scrape_html_board, raise_for_status, h, Bind.bind, Except.bind]

/-- Witness for C1 at concrete responses: a 500 from the JSON API falls
through to the HTML path, and a 500 on the HTML path raises. -/
theorem C1_json_fallback_html_propagates_witness :
    ((⟨500, Except.ok Json.null⟩ : ApiResponse).status_code ≠ 200) ∧
    get_board_jobs "airbnb" (.ok ⟨500, Except.ok Json.null⟩) (.ok ⟨200, []⟩)
      = scrape_html_board "airbnb" (.ok ⟨200, []⟩) ∧
    ¬(200 ≤ (⟨500, []⟩ : HtmlResponse).status_code ∧
        (⟨500, []⟩ : HtmlResponse).status_code < 300) ∧
    scrape_html_board "airbnb" (.ok ⟨500, []⟩) = .error (.httpStatusError 500) :=
  ⟨by decide,
   C1_json_fallback_html_propagates.2.1 "airbnb" ⟨500, Except.ok Json.null⟩
     (.ok ⟨200, []⟩) (by decide),
   by decide,
   C1_json_fallback_html_propagates.2.2.2.2.2 "airbnb" ⟨500, []⟩ (by decide)⟩
